import Mathlib

/-!
Verification of the agent capability-and-consent security control plane of
the `omniscient-shell` crate: a shallow embedding of the capability manager
(`src/agents/capabilities.rs`), the agent manifest (`src/agents/manifest.rs`),
the agent runtime (`src/agents/runtime.rs`), the token vault
(`src/oauth/vault.rs`), the OAuth broker (`src/oauth/broker.rs`), the consent
ledger (`src/oauth/consent.rs`) and the event protocol
(`src/agents/event_protocol.rs`), together with theorems settling the spec's
claims about them.

Rust `SystemTime` instants are embedded as natural numbers (nanoseconds or an
abstract tick count since the epoch: only ordering and addition matter to the
code under study).  Fallible operations (`anyhow::Result`) are embedded as
`Except String`.  Shared collections guarded by `RwLock` are embedded as the
plain collection, with operations written as state transformers; the code
never holds two locks at once, so every public operation is a function of the
collection's value at its single lock acquisition.
-/

namespace PSAI

/-- Split a character list at every occurrence of `sep`, as Rust's
`str::split` does: `n` separators yield `n + 1` parts, empty parts included. -/
def splitOnChar (sep : Char) : List Char → List (List Char)
  | [] => [[]]
  | c :: rest =>
    let r := splitOnChar sep rest
    if c = sep then
      [] :: r
    else
      match r with
      | [] => [[c]]
      | h :: t => (c :: h) :: t

/-- Rust `s.split(sep).collect::<Vec<_>>()` over a string. -/
def rustSplit (s : String) (sep : Char) : List String :=
  (splitOnChar sep s.data).map (fun cs => String.mk cs)

/-- Capability identifier: `(scope, action)`, from `capabilities.rs`. -/
structure Capability where
  scope : String
  action : String
deriving DecidableEq, Repr

namespace Capability

/-- `Capability::parse`: split the string on a dot; error unless exactly two
parts result (the parts are not checked for emptiness in the source). -/
def parse (s : String) : Except String Capability :=
  if h : (rustSplit s '.').length = 2 then
    .ok { scope := (rustSplit s '.').get ⟨0, by omega⟩,
          action := (rustSplit s '.').get ⟨1, by omega⟩ }
  else
    .error ("Invalid capability format: " ++ s)

/-- `Capability::to_string`: render as `scope.action`. -/
def render (c : Capability) : String :=
  c.scope ++ "." ++ c.action

end Capability

/-- `CapabilityGrant`: a capability with time bounds and a revocation flag. -/
structure CapabilityGrant where
  capability : Capability
  granted_at : Nat
  expires_at : Option Nat
  revoked : Bool
deriving DecidableEq, Repr

namespace CapabilityGrant

/-- `CapabilityGrant::new`: fresh grant at time `now`, expiring after the
optional duration, not revoked. -/
def make (capability : Capability) (duration : Option Nat) (now : Nat) :
    CapabilityGrant :=
  { capability := capability
    granted_at := now
    expires_at := duration.map (fun d => now + d)
    revoked := false }

/-- `CapabilityGrant::is_valid` evaluated at time `now`: false when revoked,
false when expired (strictly past `expires_at`), true otherwise. -/
def is_valid (g : CapabilityGrant) (now : Nat) : Bool :=
  if g.revoked then
    false
  else
    match g.expires_at with
    | some expires_at => if now > expires_at then false else true
    | none => true

/-- `CapabilityGrant::revoke`: set the revoked flag. -/
def setRevoked (g : CapabilityGrant) : CapabilityGrant :=
  { g with revoked := true }

end CapabilityGrant

/-- The state of a `CapabilityManager`: the grant vector behind its lock. -/
abbrev Grants := List CapabilityGrant

namespace CapabilityManager

/-- `CapabilityManager::new`: empty grant vector. -/
def new : Grants := []

/-- `CapabilityManager::grant`: push a fresh grant. -/
def grant (c : Capability) (duration : Option Nat) (now : Nat) (s : Grants) :
    Grants :=
  s ++ [CapabilityGrant.make c duration now]

/-- `CapabilityManager::check`: true iff some grant matches the capability and
is currently valid (default deny). -/
def check (c : Capability) (now : Nat) (s : Grants) : Bool :=
  s.any (fun g => g.capability == c && g.is_valid now)

/-- The mutation loop inside `CapabilityManager::revoke`: walk the grant
vector, set `revoked` on every matching non-revoked grant, and report whether
any grant was revoked. -/
def revokeLoop (c : Capability) : Grants → Grants × Bool
  | [] => ([], false)
  | g :: gs =>
    if g.capability == c && !g.revoked then
      (g.setRevoked :: (revokeLoop c gs).1, true)
    else
      (g :: (revokeLoop c gs).1, (revokeLoop c gs).2)

/-- `CapabilityManager::revoke`: succeed with the mutated vector when at least
one matching non-revoked grant was found, otherwise error. -/
def revoke (c : Capability) (s : Grants) : Except String Grants :=
  if (revokeLoop c s).2 then
    .ok (revokeLoop c s).1
  else
    .error ("Capability not found or already revoked: " ++ c.render)

/-- The grant vector after `CapabilityManager::revoke` returns (on error the
loop changed nothing, so the vector behind the lock is the input). -/
def revokeState (c : Capability) (s : Grants) : Grants :=
  (revokeLoop c s).1

/-- `CapabilityManager::active_grants`: the currently valid grants. -/
def active_grants (now : Nat) (s : Grants) : Grants :=
  s.filter (fun g => g.is_valid now)

/-- `CapabilityManager::cleanup_expired`: retain grants that are valid or not
revoked. -/
def cleanup_expired (now : Nat) (s : Grants) : Grants :=
  s.filter (fun g => g.is_valid now || !g.revoked)

end CapabilityManager

/-- One public mutating or scanning operation of `CapabilityManager`, with the
clock value it observes. -/
inductive MgrOp where
  | grant (c : Capability) (duration : Option Nat) (now : Nat)
  | revoke (c : Capability)
  | cleanup (now : Nat)
deriving DecidableEq, Repr

/-- The grant vector after one operation (a failed `revoke` leaves the vector
as the loop left it, which is unchanged). -/
def applyOp (s : Grants) : MgrOp → Grants
  | .grant c d now => CapabilityManager.grant c d now s
  | .revoke c => CapabilityManager.revokeState c s
  | .cleanup now => CapabilityManager.cleanup_expired now s

/-- Every grant in the vector matching `c` carries the revoked flag. -/
def allRevokedFor (c : Capability) (s : Grants) : Prop :=
  ∀ g ∈ s, g.capability = c → g.revoked = true

instance (c : Capability) (s : Grants) : Decidable (allRevokedFor c s) := by
  unfold allRevokedFor
  infer_instance

/-! ### Manifest (`src/agents/manifest.rs`) -/

/-- `SandboxMode`: execution isolation strategy. -/
inductive SandboxMode where
  | wasm
  | native
deriving DecidableEq, Repr

/-- `ResourceLimits`: declared cpu/mem budget strings. -/
structure ResourceLimits where
  cpu : String
  mem : String
deriving DecidableEq, Repr

/-- `UiHints`: free-form UI hint strings. -/
structure UiHints where
  hints : List String
deriving DecidableEq, Repr

/-- `Manifest` (schema v0.1): declarative description of an agent. -/
structure Manifest where
  schema_version : String
  name : String
  version : String
  entry : String
  sandbox : SandboxMode
  capabilities : List String
  oauth_scopes : List String
  resources : ResourceLimits
  ui : UiHints
deriving DecidableEq, Repr

namespace Manifest

/-- `Manifest::validate`: hard error when the schema version differs from
`"0.1"` or the entry point is empty; capability strings that contain neither a
dot nor a colon only produce a log warning, which does not affect the result. -/
def validate (m : Manifest) : Except String Unit :=
  if m.schema_version ≠ "0.1" then
    .error ("Unsupported manifest schema version: " ++ m.schema_version
      ++ ". Expected 0.1")
  else if m.entry = "" then
    .error "Manifest entry point cannot be empty"
  else
    .ok ()

/-- `Manifest::requires_native`: true for the native sandbox mode. -/
def requires_native (m : Manifest) : Bool :=
  m.sandbox == SandboxMode.native

end Manifest

/-! ### JSON values and the event protocol (`src/agents/event_protocol.rs`)

`serde_json` serialization is embedded at the level of JSON values: `to_json`
maps an event to the JSON value whose text `serde_json::to_string` prints, and
`from_json` maps a JSON value back, following the derived `Serialize` and
`Deserialize` implementations (`EventType` is adjacently tagged with
`tag = "type"`, `content = "data"`; `SystemTime` serializes as an object with
`secs_since_epoch` and `nanos_since_epoch`; `Option` as null-or-value;
`Vec<u8>` as an array of numbers).  Numbers are embedded as integers: no fixed
field of the event envelope is floating point, and the free-form
`serde_json::Value` payload of `StateUpdate` is carried through both
directions unexamined. -/

/-- A JSON value, as in `serde_json::Value` with integer numbers. -/
inductive Json where
  | null
  | bool (b : Bool)
  | num (n : Int)
  | str (s : String)
  | arr (items : List Json)
  | obj (fields : List (String × Json))

/-- A `SystemTime` as serialized by serde: whole seconds (u64) and subsecond
nanoseconds (u32) since the Unix epoch. -/
structure SysTime where
  secs : Nat
  nanos : Nat
deriving DecidableEq, Repr

/-- `InputEvent`: user or system input to an agent. -/
structure InputEvent where
  prompt : String
  context_refs : List String
deriving DecidableEq, Repr

/-- `OutputEvent`: agent response chunk; `data` is a byte vector. -/
structure OutputEvent where
  chunk_id : Nat
  content_type : String
  data : List Nat
  complete : Bool
deriving DecidableEq, Repr

/-- `ArtifactEvent`: generated artifact reference. -/
structure ArtifactEvent where
  id : String
  kind : String
  path : String
  preview_hint : Option String
deriving DecidableEq, Repr

/-- `ConsentRequestEvent`: agent requests a capability. -/
structure ConsentRequestEvent where
  capability : String
  reason : String
  duration_s : Option Nat
deriving DecidableEq, Repr

/-- `ConsentGrantEvent`: user grants a capability. -/
structure ConsentGrantEvent where
  capability : String
  expires_at : Option SysTime
deriving DecidableEq, Repr

/-- `ConsentRevokeEvent`: a capability is revoked. -/
structure ConsentRevokeEvent where
  capability : String
deriving DecidableEq, Repr

/-- `ErrorEvent`: agent error with a stable code. -/
structure ErrorEvent where
  code : String
  message : String
  hint : Option String
deriving DecidableEq, Repr

/-- `StateUpdateEvent`: agent state change; `value` is free-form JSON. -/
structure StateUpdateEvent where
  key : String
  value : Json
  scope : String

/-- `EventType`: the tagged union of the eight payload variants. -/
inductive EventType where
  | input (e : InputEvent)
  | output (e : OutputEvent)
  | artifact (e : ArtifactEvent)
  | consentRequest (e : ConsentRequestEvent)
  | consentGrant (e : ConsentGrantEvent)
  | consentRevoke (e : ConsentRevokeEvent)
  | error (e : ErrorEvent)
  | stateUpdate (e : StateUpdateEvent)

/-- `Event`: the envelope carrying a payload, agent id, timestamp, sequence. -/
structure Event where
  event_type : EventType
  agent_id : String
  timestamp : SysTime
  sequence : Nat

/-- `Event::input`: an input event with empty context refs (the source stamps
`SystemTime::now()`, passed here as `ts`). -/
def Event.input (agent_id : String) (prompt : String) (sequence : Nat)
    (ts : SysTime) : Event :=
  { event_type := .input { prompt := prompt, context_refs := [] }
    agent_id := agent_id
    timestamp := ts
    sequence := sequence }

/-- Whether an event is an `Error` event. -/
def Event.isErrorEvent (e : Event) : Bool :=
  match e.event_type with
  | .error _ => true
  | _ => false

/-- Serialize an optional value: `None` to `null`, `Some x` to `f x`. -/
def optToJson (f : α → Json) : Option α → Json
  | none => Json.null
  | some x => f x

/-- Serialize a `SystemTime`. -/
def SysTime.toJson (t : SysTime) : Json :=
  .obj [("secs_since_epoch", .num t.secs), ("nanos_since_epoch", .num t.nanos)]

/-- Serialize an `InputEvent` payload. -/
def InputEvent.toJson (e : InputEvent) : Json :=
  .obj [("prompt", .str e.prompt),
        ("context_refs", .arr (e.context_refs.map Json.str))]

/-- Serialize an `OutputEvent` payload. -/
def OutputEvent.toJson (e : OutputEvent) : Json :=
  .obj [("chunk_id", .num e.chunk_id),
        ("content_type", .str e.content_type),
        ("data", .arr (e.data.map (fun (b : Nat) => Json.num (b : Int)))),
        ("complete", .bool e.complete)]

/-- Serialize an `ArtifactEvent` payload. -/
def ArtifactEvent.toJson (e : ArtifactEvent) : Json :=
  .obj [("id", .str e.id),
        ("kind", .str e.kind),
        ("path", .str e.path),
        ("preview_hint", optToJson Json.str e.preview_hint)]

/-- Serialize a `ConsentRequestEvent` payload. -/
def ConsentRequestEvent.toJson (e : ConsentRequestEvent) : Json :=
  .obj [("capability", .str e.capability),
        ("reason", .str e.reason),
        ("duration_s", optToJson (fun n => Json.num n) e.duration_s)]

/-- Serialize a `ConsentGrantEvent` payload. -/
def ConsentGrantEvent.toJson (e : ConsentGrantEvent) : Json :=
  .obj [("capability", .str e.capability),
        ("expires_at", optToJson SysTime.toJson e.expires_at)]

/-- Serialize a `ConsentRevokeEvent` payload. -/
def ConsentRevokeEvent.toJson (e : ConsentRevokeEvent) : Json :=
  .obj [("capability", .str e.capability)]

/-- Serialize an `ErrorEvent` payload. -/
def ErrorEvent.toJson (e : ErrorEvent) : Json :=
  .obj [("code", .str e.code),
        ("message", .str e.message),
        ("hint", optToJson Json.str e.hint)]

/-- Serialize a `StateUpdateEvent` payload (the free-form value passes
through). -/
def StateUpdateEvent.toJson (e : StateUpdateEvent) : Json :=
  .obj [("key", .str e.key), ("value", e.value), ("scope", .str e.scope)]

/-- Serialize an `EventType`: adjacently tagged, `tag = "type"`,
`content = "data"`. -/
def EventType.toJson : EventType → Json
  | .input e => .obj [("type", .str "Input"), ("data", e.toJson)]
  | .output e => .obj [("type", .str "Output"), ("data", e.toJson)]
  | .artifact e => .obj [("type", .str "Artifact"), ("data", e.toJson)]
  | .consentRequest e => .obj [("type", .str "ConsentRequest"), ("data", e.toJson)]
  | .consentGrant e => .obj [("type", .str "ConsentGrant"), ("data", e.toJson)]
  | .consentRevoke e => .obj [("type", .str "ConsentRevoke"), ("data", e.toJson)]
  | .error e => .obj [("type", .str "Error"), ("data", e.toJson)]
  | .stateUpdate e => .obj [("type", .str "StateUpdate"), ("data", e.toJson)]

/-- `Event::to_json`: the JSON value printed by `serde_json::to_string`. -/
def Event.to_json (e : Event) : Json :=
  .obj [("event_type", e.event_type.toJson),
        ("agent_id", .str e.agent_id),
        ("timestamp", e.timestamp.toJson),
        ("sequence", .num e.sequence)]

/-- Look up a key among the fields of a JSON object. -/
def lookupField (k : String) : List (String × Json) → Option Json
  | [] => none
  | (k2, v) :: rest => if k2 == k then some v else lookupField k rest

/-- Look up a field of a JSON object. -/
def Json.getField (j : Json) (k : String) : Except String Json :=
  match j with
  | .obj fields =>
    match lookupField k fields with
    | some v => .ok v
    | none => .error ("missing field " ++ k)
  | _ => .error "expected an object"

/-- Deserialize a string. -/
def Json.asStr : Json → Except String String
  | .str s => .ok s
  | _ => .error "expected a string"

/-- Deserialize a boolean. -/
def Json.asBool : Json → Except String Bool
  | .bool b => .ok b
  | _ => .error "expected a boolean"

/-- Deserialize a `u64`: a number in `[0, 2^64)`. -/
def Json.asU64 : Json → Except String Nat
  | .num n => if 0 ≤ n ∧ n < 2 ^ 64 then .ok n.toNat else .error "u64 out of range"
  | _ => .error "expected a u64"

/-- Deserialize a `u32`: a number in `[0, 2^32)`. -/
def Json.asU32 : Json → Except String Nat
  | .num n => if 0 ≤ n ∧ n < 2 ^ 32 then .ok n.toNat else .error "u32 out of range"
  | _ => .error "expected a u32"

/-- Deserialize a `u8`: a number in `[0, 2^8)`. -/
def Json.asU8 : Json → Except String Nat
  | .num n => if 0 ≤ n ∧ n < 2 ^ 8 then .ok n.toNat else .error "u8 out of range"
  | _ => .error "expected a u8"

/-- Deserialize an optional value: `null` to `None`, otherwise `f`. -/
def Json.asOpt (f : Json → Except String α) : Json → Except String (Option α)
  | .null => .ok none
  | j => (f j).map some

/-- Deserialize an array elementwise. -/
def Json.asArr (f : Json → Except String α) : Json → Except String (List α)
  | .arr items => items.mapM f
  | _ => .error "expected an array"

/-- Deserialize a `SystemTime`. -/
def SysTime.fromJson (j : Json) : Except String SysTime := do
  let secs ← (← j.getField "secs_since_epoch").asU64
  let nanos ← (← j.getField "nanos_since_epoch").asU32
  pure { secs := secs, nanos := nanos }

/-- Deserialize an `InputEvent` payload. -/
def InputEvent.fromJson (j : Json) : Except String InputEvent := do
  let prompt ← (← j.getField "prompt").asStr
  let context_refs ← (← j.getField "context_refs").asArr Json.asStr
  pure { prompt := prompt, context_refs := context_refs }

/-- Deserialize an `OutputEvent` payload. -/
def OutputEvent.fromJson (j : Json) : Except String OutputEvent := do
  let chunk_id ← (← j.getField "chunk_id").asU64
  let content_type ← (← j.getField "content_type").asStr
  let data ← (← j.getField "data").asArr Json.asU8
  let complete ← (← j.getField "complete").asBool
  pure { chunk_id := chunk_id, content_type := content_type, data := data,
         complete := complete }

/-- Deserialize an `ArtifactEvent` payload. -/
def ArtifactEvent.fromJson (j : Json) : Except String ArtifactEvent := do
  let id ← (← j.getField "id").asStr
  let kind ← (← j.getField "kind").asStr
  let path ← (← j.getField "path").asStr
  let preview_hint ← (← j.getField "preview_hint").asOpt Json.asStr
  pure { id := id, kind := kind, path := path, preview_hint := preview_hint }

/-- Deserialize a `ConsentRequestEvent` payload. -/
def ConsentRequestEvent.fromJson (j : Json) : Except String ConsentRequestEvent := do
  let capability ← (← j.getField "capability").asStr
  let reason ← (← j.getField "reason").asStr
  let duration_s ← (← j.getField "duration_s").asOpt Json.asU64
  pure { capability := capability, reason := reason, duration_s := duration_s }

/-- Deserialize a `ConsentGrantEvent` payload. -/
def ConsentGrantEvent.fromJson (j : Json) : Except String ConsentGrantEvent := do
  let capability ← (← j.getField "capability").asStr
  let expires_at ← (← j.getField "expires_at").asOpt SysTime.fromJson
  pure { capability := capability, expires_at := expires_at }

/-- Deserialize a `ConsentRevokeEvent` payload. -/
def ConsentRevokeEvent.fromJson (j : Json) : Except String ConsentRevokeEvent := do
  let capability ← (← j.getField "capability").asStr
  pure { capability := capability }

/-- Deserialize an `ErrorEvent` payload. -/
def ErrorEvent.fromJson (j : Json) : Except String ErrorEvent := do
  let code ← (← j.getField "code").asStr
  let message ← (← j.getField "message").asStr
  let hint ← (← j.getField "hint").asOpt Json.asStr
  pure { code := code, message := message, hint := hint }

/-- Deserialize a `StateUpdateEvent` payload (the free-form value passes
through). -/
def StateUpdateEvent.fromJson (j : Json) : Except String StateUpdateEvent := do
  let key ← (← j.getField "key").asStr
  let value ← j.getField "value"
  let scope ← (← j.getField "scope").asStr
  pure { key := key, value := value, scope := scope }

/-- Deserialize an `EventType` from its adjacently tagged encoding. -/
def EventType.fromJson (j : Json) : Except String EventType := do
  let tag ← (← j.getField "type").asStr
  let data ← j.getField "data"
  if tag = "Input" then
    EventType.input <$> InputEvent.fromJson data
  else if tag = "Output" then
    EventType.output <$> OutputEvent.fromJson data
  else if tag = "Artifact" then
    EventType.artifact <$> ArtifactEvent.fromJson data
  else if tag = "ConsentRequest" then
    EventType.consentRequest <$> ConsentRequestEvent.fromJson data
  else if tag = "ConsentGrant" then
    EventType.consentGrant <$> ConsentGrantEvent.fromJson data
  else if tag = "ConsentRevoke" then
    EventType.consentRevoke <$> ConsentRevokeEvent.fromJson data
  else if tag = "Error" then
    EventType.error <$> ErrorEvent.fromJson data
  else if tag = "StateUpdate" then
    EventType.stateUpdate <$> StateUpdateEvent.fromJson data
  else
    .error ("unknown event type tag: " ++ tag)

/-- `Event::from_json`: parse an event envelope from a JSON value. -/
def Event.from_json (j : Json) : Except String Event := do
  let event_type ← EventType.fromJson (← j.getField "event_type")
  let agent_id ← (← j.getField "agent_id").asStr
  let timestamp ← SysTime.fromJson (← j.getField "timestamp")
  let sequence ← (← j.getField "sequence").asU64
  pure { event_type := event_type, agent_id := agent_id,
         timestamp := timestamp, sequence := sequence }

/-- Range constraints the Rust integer types impose on a `SystemTime`'s
serialized fields. -/
def SysTime.WF (t : SysTime) : Prop :=
  t.secs < 2 ^ 64 ∧ t.nanos < 2 ^ 32

/-- Range constraints the Rust integer types impose on a payload. -/
def EventType.WF : EventType → Prop
  | .output e => e.chunk_id < 2 ^ 64 ∧ ∀ b ∈ e.data, b < 2 ^ 8
  | .consentRequest e => ∀ n ∈ e.duration_s, n < 2 ^ 64
  | .consentGrant e => ∀ t ∈ e.expires_at, t.WF
  | _ => True

/-- Range constraints the Rust integer types impose on an event. -/
def Event.WF (e : Event) : Prop :=
  e.event_type.WF ∧ e.timestamp.WF ∧ e.sequence < 2 ^ 64

/-! ### Agent runtime (`src/agents/runtime.rs`) -/

namespace AgentRuntime

/-- The capability-check loop at the head of `AgentRuntime::execute`: each
declared capability string is parsed (a parse failure aborts with its error);
a failed `CapabilityManager::check` is only logged as a warning and the loop
continues. -/
def capabilityChecks (grants : Grants) (now : Nat) :
    List String → Except String Unit
  | [] => .ok ()
  | capStr :: rest =>
    match Capability.parse capStr with
    | .error e => .error e
    | .ok cap =>
      let _granted := CapabilityManager.check cap now grants
      capabilityChecks grants now rest

/-- `AgentRuntime::execute`: run the capability-check loop, then dispatch by
sandbox mode; both placeholder backends return a single input event. -/
def execute (grants : Grants) (now : Nat) (m : Manifest) (inp : String)
    (ts : SysTime) : Except String (List Event) :=
  match capabilityChecks grants now m.capabilities with
  | .error e => .error e
  | .ok _ =>
    if m.requires_native then
      .ok [Event.input "native-agent" inp 0 ts]
    else
      .ok [Event.input "wasm-agent" inp 0 ts]

end AgentRuntime

/-! ### Token vault (`src/oauth/vault.rs`)

The `HashMap<String, String>` backing stores are embedded as association
lists with most-recent-insertion-first lookup; the OS keychain is an external
collaborator, embedded as a further association list carried in the vault
state.  Mutating operations return the updated vault paired with the
`Result`; a bail leaves the vault exactly as it was. -/

/-- Insert or overwrite a key in a string map. -/
def mapInsert (m : List (String × String)) (k v : String) :
    List (String × String) :=
  (k, v) :: m.filter (fun p => !(p.1 == k))

/-- Look up a key in a string map. -/
def mapGet (m : List (String × String)) (k : String) : Option String :=
  (m.find? (fun p => p.1 == k)).map Prod.snd

/-- Remove a key from a string map. -/
def mapRemove (m : List (String × String)) (k : String) :
    List (String × String) :=
  m.filter (fun p => !(p.1 == k))

/-- `VaultBackend`: storage strategy, fixed at construction. -/
inductive VaultBackend where
  | osKeychain
  | encryptedSqlite (path : String)
  | inMemory
deriving DecidableEq, Repr

/-- `TokenVault`: backend selector, in-memory store, lock flag, and the
external OS keychain's state. -/
structure TokenVault where
  backend : VaultBackend
  in_memory_store : List (String × String)
  keychain : List (String × String)
  locked : Bool
deriving DecidableEq, Repr

namespace TokenVault

/-- `TokenVault::new_in_memory` (the other constructors differ only in the
`backend` field): empty store, unlocked. -/
def make (backend : VaultBackend) : TokenVault :=
  { backend := backend, in_memory_store := [], keychain := [], locked := false }

/-- `TokenVault::store`: bail when locked; otherwise upsert into the backend's
store (the keychain for `OsKeychain`, the in-memory map otherwise). -/
def store (v : TokenVault) (label token : String) :
    TokenVault × Except String Unit :=
  if v.locked then
    (v, .error "Vault is locked")
  else
    match v.backend with
    | .osKeychain =>
      ({ v with keychain := mapInsert v.keychain label token }, .ok ())
    | .encryptedSqlite _ =>
      ({ v with in_memory_store := mapInsert v.in_memory_store label token },
       .ok ())
    | .inMemory =>
      ({ v with in_memory_store := mapInsert v.in_memory_store label token },
       .ok ())

/-- `TokenVault::fetch`: bail when locked; otherwise look the label up in the
backend's store, with a not-found error when absent. -/
def fetch (v : TokenVault) (label : String) : Except String String :=
  if v.locked then
    .error "Vault is locked"
  else
    match v.backend with
    | .osKeychain =>
      match mapGet v.keychain label with
      | some t => .ok t
      | none => .error ("No matching entry found in secure storage: " ++ label)
    | .encryptedSqlite _ =>
      match mapGet v.in_memory_store label with
      | some t => .ok t
      | none => .error ("Token not found: " ++ label)
    | .inMemory =>
      match mapGet v.in_memory_store label with
      | some t => .ok t
      | none => .error ("Token not found: " ++ label)

/-- `TokenVault::delete`: bail when locked; for the keychain backend the
external `delete_credential` call errors when the entry is absent; for the
other backends `HashMap::remove` silently ignores an absent key. -/
def delete (v : TokenVault) (label : String) : TokenVault × Except String Unit :=
  if v.locked then
    (v, .error "Vault is locked")
  else
    match v.backend with
    | .osKeychain =>
      match mapGet v.keychain label with
      | some _ => ({ v with keychain := mapRemove v.keychain label }, .ok ())
      | none =>
        (v, .error ("No matching entry found in secure storage: " ++ label))
    | .encryptedSqlite _ =>
      ({ v with in_memory_store := mapRemove v.in_memory_store label }, .ok ())
    | .inMemory =>
      ({ v with in_memory_store := mapRemove v.in_memory_store label }, .ok ())

/-- `TokenVault::lock`: set the lock flag. -/
def lock (v : TokenVault) : TokenVault :=
  { v with locked := true }

/-- `TokenVault::unlock`: clear the lock flag. -/
def unlock (v : TokenVault) : TokenVault :=
  { v with locked := false }

/-- `TokenVault::is_locked`. -/
def is_locked (v : TokenVault) : Bool :=
  v.locked

end TokenVault

/-! ### Consent ledger (`src/oauth/consent.rs`) and OAuth broker
(`src/oauth/broker.rs`) -/

/-- `ConsentAction`: the decision recorded by a ledger entry. -/
inductive ConsentAction where
  | grantAct (capability : String) (duration_s : Option Nat)
  | revokeAct (capability : String)
  | denyAct (capability : String) (reason : String)
deriving DecidableEq, Repr

/-- `ConsentEntry`: one immutable audit record. -/
structure ConsentEntry where
  timestamp : Nat
  agent_id : String
  action : ConsentAction
  user_id : Option String
deriving DecidableEq, Repr

/-- The state of a `ConsentLedger`: the entry vector behind its lock. -/
abbrev Ledger := List ConsentEntry

namespace ConsentLedger

/-- `ConsentLedger::new`: empty entry vector. -/
def make : Ledger := []

/-- `ConsentLedger::log_revoke`: append a revoke entry stamped `now`. -/
def log_revoke (agent_id capability : String) (now : Nat) (l : Ledger) :
    Ledger :=
  l ++ [{ timestamp := now, agent_id := agent_id,
          action := .revokeAct capability, user_id := none }]

end ConsentLedger

/-- `TokenHandle`: opaque reference to a vault-resident secret. -/
structure TokenHandle where
  id : String
  provider : String
  scopes : List String
deriving DecidableEq, Repr

/-- The state `OAuthBroker::revoke` can reach: the broker's vault (the
provider map is untouched by `revoke`).  The broker holds no reference to a
`ConsentLedger`. -/
structure OAuthBroker where
  vault : TokenVault
deriving DecidableEq, Repr

/-- `OAuthBroker::revoke`: delete the vault entry keyed by the handle's id and
return; the function body references no consent ledger. -/
def OAuthBroker.revoke (b : OAuthBroker) (handle : TokenHandle) :
    OAuthBroker × Except String Unit :=
  let (v, r) := b.vault.delete handle.id
  ({ b with vault := v }, r)

/-- The revocation path as the system runs it: `OAuthBroker::revoke` next to
whatever consent ledger the host holds.  No code on this path appends to the
ledger, so it is returned unchanged. -/
def systemRevoke (b : OAuthBroker) (l : Ledger) (handle : TokenHandle) :
    (OAuthBroker × Ledger) × Except String Unit :=
  let (b2, r) := b.revoke handle
  ((b2, l), r)

/-! ## Theorems -/

/-- A list of length two is the pair of its entries. -/
theorem eq_pair_of_length_two {α : Type} (l : List α) (h : l.length = 2) :
    l = [l.get ⟨0, by omega⟩, l.get ⟨1, by omega⟩] := by
  rcases l with _ | ⟨a, _ | ⟨b, _ | ⟨c, t⟩⟩⟩
  · exact absurd h (by simp)
  · exact absurd h (by simp)
  · rfl
  · refine absurd h ?_
    simp only [List.length_cons]
    omega

/-- C2: on a freshly constructed `CapabilityManager`, with no grant calls yet,
`check(c)` returns false for every capability `c` (at every time). -/
theorem fresh_manager_denies_all (c : Capability) (now : Nat) :
    CapabilityManager.check c now CapabilityManager.new = false := rfl

/-- C6 counterexample: `Capability::parse` accepts inputs with an empty scope
or an empty action, because the source checks only that splitting on the dot
yields exactly two parts, not that the parts are non-empty: `"files."` parses
to scope `"files"` with empty action, and `".read"` to empty scope with action
`"read"`, where the claim requires a `FormatError`. -/
theorem parse_accepts_empty_parts :
    Capability.parse "files." = .ok { scope := "files", action := "" } ∧
    Capability.parse ".read" = .ok { scope := "", action := "read" } :=
  ⟨rfl, rfl⟩

/-- C6 (amended): `Capability::parse` succeeds if and only if splitting the
input on `.` yields exactly two parts, which may be empty; on success the two
parts are the returned scope and action. -/
theorem parse_ok_iff_two_parts (s : String) :
    ((Capability.parse s).isOk ↔ (rustSplit s '.').length = 2) ∧
    (∀ c, Capability.parse s = .ok c → rustSplit s '.' = [c.scope, c.action]) := by
  constructor
  · unfold Capability.parse
    split
    · simpa [Except.isOk, Except.toBool] using ‹(rustSplit s '.').length = 2›
    · simpa [Except.isOk, Except.toBool] using ‹¬(rustSplit s '.').length = 2›
  · intro c hc
    unfold Capability.parse at hc
    split at hc
    case isTrue h =>
      cases hc
      exact eq_pair_of_length_two (rustSplit s '.') h
    case isFalse h =>
      cases hc

/-- C6 witness: at input `"files.read"` the parse succeeds, the split has two
parts, and they are the returned scope and action. -/
theorem parse_ok_iff_two_parts_witness :
    rustSplit "files.read" '.' =
      [Capability.scope { scope := "files", action := "read" },
       Capability.action { scope := "files", action := "read" }] :=
  (parse_ok_iff_two_parts "files.read").2
    { scope := "files", action := "read" } rfl

/-- C9: `Manifest::validate` errors whenever the schema version differs from
`"0.1"`, errors whenever the entry is empty, and returns `Ok` for every
manifest with schema version `"0.1"` and non-empty entry — the capability
strings, well-formed or not, never affect the result. -/
theorem manifest_validate_spec (m : Manifest) :
    (m.schema_version ≠ "0.1" → ∃ e, m.validate = .error e) ∧
    (m.entry = "" → ∃ e, m.validate = .error e) ∧
    (m.schema_version = "0.1" → m.entry ≠ "" → m.validate = .ok ()) := by
  unfold Manifest.validate
  refine ⟨fun h1 => ?_, fun h2 => ?_, fun h1 h2 => ?_⟩
  · rw [if_pos h1]
    exact ⟨_, rfl⟩
  · by_cases h1 : m.schema_version ≠ "0.1"
    · rw [if_pos h1]
      exact ⟨_, rfl⟩
    · rw [if_neg h1, if_pos h2]
      exact ⟨_, rfl⟩
  · rw [if_neg (by simp [h1]), if_neg h2]

/-- C9 witness: a schema-0.2 manifest fails, an empty-entry manifest fails,
and a schema-0.1 manifest with non-empty entry and a malformed capability
string passes. -/
theorem manifest_validate_spec_witness :
    (∃ e, Manifest.validate
      { schema_version := "0.2", name := "a", version := "1", entry := "run",
        sandbox := .wasm, capabilities := [], oauth_scopes := [],
        resources := { cpu := "500m", mem := "512Mi" }, ui := { hints := [] } }
      = .error e) ∧
    (∃ e, Manifest.validate
      { schema_version := "0.1", name := "a", version := "1", entry := "",
        sandbox := .wasm, capabilities := [], oauth_scopes := [],
        resources := { cpu := "500m", mem := "512Mi" }, ui := { hints := [] } }
      = .error e) ∧
    Manifest.validate
      { schema_version := "0.1", name := "a", version := "1", entry := "run",
        sandbox := .wasm, capabilities := ["malformed"], oauth_scopes := [],
        resources := { cpu := "500m", mem := "512Mi" }, ui := { hints := [] } }
      = .ok () :=
  ⟨(manifest_validate_spec _).1 (by decide),
   (manifest_validate_spec _).2.1 rfl,
   (manifest_validate_spec _).2.2 rfl (by decide)⟩

/-- Surviving one `cleanup_expired` pass: a grant that was present and not
revoked is retained. -/
theorem mem_cleanup_of_not_revoked {g : CapabilityGrant} {s : Grants}
    (hmem : g ∈ s) (hrev : g.revoked = false) (now : Nat) :
    g ∈ CapabilityManager.cleanup_expired now s := by
  unfold CapabilityManager.cleanup_expired
  refine List.mem_filter.mpr ⟨hmem, ?_⟩
  simp [hrev]

/-- C7: `cleanup_expired` removes exactly the grants whose revoked flag is
set — the result is the grant vector filtered to the non-revoked grants, at
every clock value — and a never-revoked grant (in particular one that is
merely time-expired) is still present after any number of passes. -/
theorem cleanup_removes_only_revoked (now : Nat) (s : Grants) :
    CapabilityManager.cleanup_expired now s = s.filter (fun g => !g.revoked) ∧
    (∀ g ∈ s, g.revoked = false →
      ∀ n : Nat, g ∈ (fun l => CapabilityManager.cleanup_expired now l)^[n] s) := by
  constructor
  · unfold CapabilityManager.cleanup_expired
    refine List.filter_congr (fun g _ => ?_)
    cases hrev : g.revoked
    · simp
    · simp [CapabilityGrant.is_valid, hrev]
  · intro g hmem hrev n
    induction n generalizing s with
    | zero => simpa using hmem
    | succ k ih =>
      rw [Function.iterate_succ_apply]
      exact ih _ (mem_cleanup_of_not_revoked hmem hrev now)

/-- C7 witness: a time-expired, never-revoked grant survives three cleanup
passes while a revoked grant is dropped. -/
theorem cleanup_removes_only_revoked_witness :
    CapabilityManager.cleanup_expired 50
      [{ capability := { scope := "files", action := "read" }, granted_at := 0,
         expires_at := some 10, revoked := false },
       { capability := { scope := "net", action := "connect" }, granted_at := 0,
         expires_at := none, revoked := true }] =
      [{ capability := { scope := "files", action := "read" }, granted_at := 0,
         expires_at := some 10, revoked := false }] ∧
    { capability := { scope := "files", action := "read" }, granted_at := 0,
      expires_at := some 10, revoked := false } ∈
      (fun l => CapabilityManager.cleanup_expired 50 l)^[3]
        [{ capability := { scope := "files", action := "read" }, granted_at := 0,
           expires_at := some 10, revoked := false },
         { capability := { scope := "net", action := "connect" }, granted_at := 0,
           expires_at := none, revoked := true }] :=
  ⟨by rw [(cleanup_removes_only_revoked 50 _).1]; rfl,
   (cleanup_removes_only_revoked 50 _).2 _ (by simp) rfl 3⟩

/-- The grant vector the revoke loop produces: every matching non-revoked
grant gets its revoked flag set, every other grant is untouched. -/
theorem revokeLoop_fst (c : Capability) (s : Grants) :
    (CapabilityManager.revokeLoop c s).1 =
      s.map (fun g =>
        if g.capability == c && !g.revoked then g.setRevoked else g) := by
  induction s with
  | nil => rfl
  | cons g gs ih =>
    simp only [CapabilityManager.revokeLoop, List.map_cons]
    split <;> simp [ih]

/-- The hit flag the revoke loop reports: true iff some grant matches and is
not yet revoked. -/
theorem revokeLoop_snd (c : Capability) (s : Grants) :
    (CapabilityManager.revokeLoop c s).2 =
      s.any (fun g => g.capability == c && !g.revoked) := by
  induction s with
  | nil => rfl
  | cons g gs ih =>
    simp only [CapabilityManager.revokeLoop, List.any_cons]
    split
    · simp_all
    · simp_all

/-- Mapping a function that fixes every element of a list is the identity. -/
theorem map_eq_self_of_fixes {α : Type} (l : List α) (f : α → α)
    (h : ∀ x ∈ l, f x = x) : l.map f = l := by
  induction l with
  | nil => rfl
  | cons x xs ih =>
    rw [List.map_cons, h x (by simp), ih (fun y hy => h y (by simp [hy]))]

/-- C5: when some matching non-revoked grant exists, `revoke` succeeds and its
result is the grant vector with exactly the matching non-revoked grants marked
revoked (all others untouched); when none exists, `revoke` reports an error
and the grant vector is left unchanged. -/
theorem revoke_strict_spec (c : Capability) (s : Grants) :
    ((∃ g ∈ s, g.capability = c ∧ g.revoked = false) →
      CapabilityManager.revoke c s =
        .ok (s.map (fun g =>
          if g.capability == c && !g.revoked then g.setRevoked else g))) ∧
    ((∀ g ∈ s, g.capability = c → g.revoked = true) →
      (∃ msg, CapabilityManager.revoke c s = .error msg) ∧
      CapabilityManager.revokeState c s = s) := by
  constructor
  · rintro ⟨g, hg, hcap, hrev⟩
    have hany : (CapabilityManager.revokeLoop c s).2 = true := by
      rw [revokeLoop_snd, List.any_eq_true]
      exact ⟨g, hg, by simp [hcap, hrev]⟩
    unfold CapabilityManager.revoke
    rw [hany, if_pos rfl, revokeLoop_fst]
  · intro hall
    have hany : (CapabilityManager.revokeLoop c s).2 = false := by
      rw [revokeLoop_snd, List.any_eq_false]
      intro g hg
      by_cases hcap : g.capability = c
      · simp [hcap, hall g hg hcap]
      · simp [hcap]
    constructor
    · unfold CapabilityManager.revoke
      rw [hany]
      exact ⟨_, rfl⟩
    · unfold CapabilityManager.revokeState
      rw [revokeLoop_fst]
      refine map_eq_self_of_fixes s _ (fun g hg => ?_)
      by_cases hcap : g.capability = c
      · simp [hcap, hall g hg hcap]
      · simp [hcap]

/-- C5 witness: revoking a granted capability marks its grant; revoking on a
vector whose only matching grant is already revoked errors and changes
nothing. -/
theorem revoke_strict_spec_witness :
    CapabilityManager.revoke { scope := "files", action := "read" }
      [{ capability := { scope := "files", action := "read" }, granted_at := 0,
         expires_at := none, revoked := false }] =
      .ok [{ capability := { scope := "files", action := "read" },
             granted_at := 0, expires_at := none, revoked := true }] ∧
    (∃ msg, CapabilityManager.revoke { scope := "files", action := "read" }
      [{ capability := { scope := "files", action := "read" }, granted_at := 0,
         expires_at := none, revoked := true }] = .error msg) ∧
    CapabilityManager.revokeState { scope := "files", action := "read" }
      [{ capability := { scope := "files", action := "read" }, granted_at := 0,
         expires_at := none, revoked := true }] =
      [{ capability := { scope := "files", action := "read" }, granted_at := 0,
         expires_at := none, revoked := true }] := by
  refine ⟨?_, ?_, ?_⟩
  · exact (revoke_strict_spec { scope := "files", action := "read" }
      [{ capability := { scope := "files", action := "read" }, granted_at := 0,
         expires_at := none, revoked := false }]).1
      ⟨{ capability := { scope := "files", action := "read" }, granted_at := 0,
         expires_at := none, revoked := false }, by simp, rfl, rfl⟩
  · exact ((revoke_strict_spec _ _).2 (by simp)).1
  · exact ((revoke_strict_spec _ _).2 (by simp)).2

/-- A revoked grant is never valid, at any clock value and any expiry. -/
theorem is_valid_false_of_revoked (g : CapabilityGrant) (now : Nat)
    (h : g.revoked = true) : g.is_valid now = false := by
  unfold CapabilityGrant.is_valid
  rw [if_pos h]

/-- No operation resurrects a revoked grant: a non-revoked grant present after
an operation was already present before it, or is the fresh grant appended by
a `grant` call. -/
theorem applyOp_no_unrevoke (t : Grants) (op : MgrOp) (g : CapabilityGrant)
    (hmem : g ∈ applyOp t op) (hrev : g.revoked = false) :
    g ∈ t ∨ ∃ c2 d n2, op = MgrOp.grant c2 d n2 ∧
      g = CapabilityGrant.make c2 d n2 := by
  cases op with
  | grant c2 d n2 =>
    simp only [applyOp, CapabilityManager.grant] at hmem
    rcases List.mem_append.mp hmem with h | h
    · exact Or.inl h
    · exact Or.inr ⟨c2, d, n2, rfl, by simpa using h⟩
  | revoke c2 =>
    simp only [applyOp, CapabilityManager.revokeState] at hmem
    rw [revokeLoop_fst] at hmem
    rcases List.mem_map.mp hmem with ⟨g0, hg0, hfg⟩
    left
    by_cases hcond : (g0.capability == c2 && !g0.revoked) = true
    · rw [if_pos hcond] at hfg
      rw [← hfg] at hrev
      exact absurd hrev (by simp [CapabilityGrant.setRevoked])
    · rw [if_neg hcond] at hfg
      rwa [← hfg]
  | cleanup n2 =>
    simp only [applyOp, CapabilityManager.cleanup_expired] at hmem
    exact Or.inl (List.mem_filter.mp hmem).1

/-- A successful `revoke(c)` leaves every grant matching `c` revoked. -/
theorem allRevokedFor_of_revoke_ok (c : Capability) (s s' : Grants)
    (h : CapabilityManager.revoke c s = .ok s') : allRevokedFor c s' := by
  unfold CapabilityManager.revoke at h
  split at h
  · cases h
    intro g hmem hcap
    rw [revokeLoop_fst] at hmem
    rcases List.mem_map.mp hmem with ⟨g0, hg0, hfg⟩
    by_cases hcond : (g0.capability == c && !g0.revoked) = true
    · rw [if_pos hcond] at hfg
      rw [← hfg]
      rfl
    · rw [if_neg hcond] at hfg
      subst hfg
      simp only [Bool.and_eq_true, beq_iff_eq, Bool.not_eq_true',
        not_and] at hcond
      by_contra hne
      exact absurd (hcond hcap) (by simp_all)
  · cases h

/-- The revoked-for invariant survives any operation that is not a fresh grant
of the same capability. -/
theorem allRevokedFor_applyOp (c : Capability) (t : Grants) (op : MgrOp)
    (hall : allRevokedFor c t)
    (hop : ∀ d n2, op ≠ MgrOp.grant c d n2) :
    allRevokedFor c (applyOp t op) := by
  intro g hmem hcap
  by_cases hrev : g.revoked = true
  · exact hrev
  · exfalso
    have hrev' : g.revoked = false := by simpa using hrev
    rcases applyOp_no_unrevoke t op g hmem hrev' with h | ⟨c2, d, n2, rfl, rfl⟩
    · exact absurd (hall g h hcap) (by simp [hrev'])
    · exact hop d n2 (by rw [show c2 = c from hcap])

/-- `check` is false whenever every matching grant is revoked. -/
theorem check_false_of_allRevoked (c : Capability) (t : Grants)
    (hall : allRevokedFor c t) (now : Nat) :
    CapabilityManager.check c now t = false := by
  unfold CapabilityManager.check
  rw [List.any_eq_false]
  intro g hg
  by_cases hcap : g.capability = c
  · simp [hcap, is_valid_false_of_revoked g now (hall g hg hcap)]
  · simp [hcap]

/-- `check` stays false across any sequence of operations that never grants
the capability afresh, once every matching grant is revoked. -/
theorem check_false_after_ops (c : Capability) (s : Grants)
    (hall : allRevokedFor c s) (ops : List MgrOp)
    (hops : ∀ op ∈ ops, ∀ d n2, op ≠ MgrOp.grant c d n2) (now : Nat) :
    CapabilityManager.check c now (ops.foldl applyOp s) = false := by
  induction ops generalizing s with
  | nil => exact check_false_of_allRevoked c s hall now
  | cons op ops ih =>
    rw [List.foldl_cons]
    exact ih (applyOp s op)
      (allRevokedFor_applyOp c s op hall (hops op (by simp)))
      (fun o ho => hops o (by simp [ho]))

/-- C3: a revoked grant is invalid at every time regardless of expiry; no
manager operation clears a revoked flag (every non-revoked grant after an
operation pre-existed it or is a freshly appended grant); after a successful
`revoke(c)` every grant matching `c` is revoked, and `check(c)` stays false
across every later operation sequence that does not grant `c` afresh. -/
theorem revoked_grants_stay_revoked (c : Capability) (s s' : Grants)
    (h : CapabilityManager.revoke c s = .ok s') :
    (∀ (g : CapabilityGrant) (now : Nat),
      g.revoked = true → g.is_valid now = false) ∧
    (∀ (t : Grants) (op : MgrOp) (g : CapabilityGrant),
      g ∈ applyOp t op → g.revoked = false →
      g ∈ t ∨ ∃ c2 d n2, op = MgrOp.grant c2 d n2 ∧
        g = CapabilityGrant.make c2 d n2) ∧
    allRevokedFor c s' ∧
    (∀ ops : List MgrOp,
      (∀ op ∈ ops, ∀ d n2, op ≠ MgrOp.grant c d n2) →
      ∀ now, CapabilityManager.check c now (ops.foldl applyOp s') = false) :=
  ⟨is_valid_false_of_revoked,
   applyOp_no_unrevoke,
   allRevokedFor_of_revoke_ok c s s' h,
   fun ops hops now =>
     check_false_after_ops c s' (allRevokedFor_of_revoke_ok c s s' h)
       ops hops now⟩

/-- C3 witness: revoking the one grant of `files.read` succeeds, and `check`
is still false after a cleanup pass and an unrelated grant. -/
theorem revoked_grants_stay_revoked_witness :
    CapabilityManager.revoke { scope := "files", action := "read" }
      [{ capability := { scope := "files", action := "read" }, granted_at := 0,
         expires_at := some 100, revoked := false }] =
      .ok [{ capability := { scope := "files", action := "read" },
             granted_at := 0, expires_at := some 100, revoked := true }] ∧
    CapabilityManager.check { scope := "files", action := "read" } 9
      ([MgrOp.cleanup 5,
        MgrOp.grant { scope := "net", action := "connect" } none 6].foldl
          applyOp
          [{ capability := { scope := "files", action := "read" },
             granted_at := 0, expires_at := some 100, revoked := true }]) =
      false := by
  refine ⟨rfl, ?_⟩
  refine (revoked_grants_stay_revoked { scope := "files", action := "read" }
    [{ capability := { scope := "files", action := "read" }, granted_at := 0,
       expires_at := some 100, revoked := false }]
    [{ capability := { scope := "files", action := "read" }, granted_at := 0,
       expires_at := some 100, revoked := true }] rfl).2.2.2 _ ?_ 9
  intro op hop d n2
  simp only [List.mem_cons, List.not_mem_nil, or_false] at hop
  rcases hop with rfl | rfl
  · exact fun hh => MgrOp.noConfusion hh
  · intro hh
    injection hh with h1 h2 h3
    exact absurd h1 (by decide)

/-- A manifest declaring `files.read`, used to exercise the runtime's
capability-check loop against a fresh (empty) capability manager. -/
def noConsentManifest : Manifest :=
  { schema_version := "0.1", name := "demo", version := "0.1.0",
    entry := "agent.wasm", sandbox := .wasm, capabilities := ["files.read"],
    oauth_scopes := [], resources := { cpu := "500m", mem := "512Mi" },
    ui := { hints := [] } }

/-- C1: on a fresh capability manager the declared capability `files.read`
checks false, yet `AgentRuntime::execute` succeeds and returns only the
backend's normal input event — no `Error` event carrying a denial code appears
in the returned event list, and execution is not blocked.  The capability
denial is only written to the log, contradicting the contract that a denial
be surfaced as an `Error` event. -/
theorem execute_swallows_capability_denial :
    CapabilityManager.check { scope := "files", action := "read" } 0
      CapabilityManager.new = false ∧
    AgentRuntime.execute CapabilityManager.new 0 noConsentManifest "hello"
      { secs := 0, nanos := 0 } =
      .ok [Event.input "wasm-agent" "hello" 0 { secs := 0, nanos := 0 }] ∧
    (Event.input "wasm-agent" "hello" 0 { secs := 0, nanos := 0 }).isErrorEvent
      = false :=
  ⟨rfl, rfl, rfl⟩

/-- The broker revocation path run at a concrete state: an unlocked in-memory
vault holding the secret for handle `h-1`, next to an empty consent ledger. -/
def brokerRevokeDemo : (OAuthBroker × Ledger) × Except String Unit :=
  systemRevoke
    { vault := { backend := .inMemory, in_memory_store := [("h-1", "tok")],
                 keychain := [], locked := false } }
    ConsentLedger.make
    { id := "h-1", provider := "github", scopes := ["repo"] }

/-- C8: on the broker's revocation path, with an unlocked in-memory vault
holding the handle's secret and an empty consent ledger alongside, revoke
succeeds and deletes the vault entry keyed by the handle id — but the consent
ledger is exactly as before: no revoke entry is appended anywhere in
`OAuthBroker::revoke` (the broker holds no ledger reference at all), while a
`ConsentLedger::log_revoke` would have appended one. -/
theorem broker_revoke_skips_ledger :
    brokerRevokeDemo.2 = .ok () ∧
    brokerRevokeDemo.1.1.vault.in_memory_store = [] ∧
    brokerRevokeDemo.1.2 = ConsentLedger.make ∧
    ConsentLedger.log_revoke "agent" "files.read" 0 ConsentLedger.make ≠
      ConsentLedger.make :=
  ⟨rfl, rfl, rfl, by simp [ConsentLedger.log_revoke, ConsentLedger.make]⟩

/-- Fetching a just-inserted key returns the inserted value. -/
theorem mapGet_insert_self (m : List (String × String)) (k tok : String) :
    mapGet (mapInsert m k tok) k = some tok := by
  unfold mapGet mapInsert
  rw [List.find?_cons_of_pos _ (by simp)]
  rfl

/-- C4: while the vault is locked, `store`, `fetch` and `delete` all fail with
the Locked error and leave the vault state (both backing stores) untouched;
`lock` followed by `unlock` changes nothing but the lock flag; and for a
non-keychain backend a value stored before `lock()` is fetched back unchanged
after `unlock()`. -/
theorem vault_lock_gating (v : TokenVault) (label token : String) :
    (v.locked = true →
      v.store label token = (v, .error "Vault is locked") ∧
      v.fetch label = .error "Vault is locked" ∧
      v.delete label = (v, .error "Vault is locked")) ∧
    v.lock.unlock = { v with locked := false } ∧
    (v.locked = false → v.fetch label = .ok token →
      (v.lock.unlock).fetch label = .ok token) ∧
    (v.locked = false → v.backend ≠ VaultBackend.osKeychain →
      ((v.store label token).1.lock.unlock).fetch label = .ok token) := by
  refine ⟨fun hl => ?_, rfl, fun hu hf => ?_, fun hu hb => ?_⟩
  · unfold TokenVault.store TokenVault.fetch TokenVault.delete
    rw [if_pos hl, if_pos hl, if_pos hl]
    exact ⟨rfl, rfl, rfl⟩
  · simpa [TokenVault.fetch, TokenVault.lock, TokenVault.unlock, hu] using hf
  · cases hbk : v.backend with
    | osKeychain => exact absurd hbk hb
    | encryptedSqlite p =>
      unfold TokenVault.store
      rw [if_neg (by simp [hu]), hbk]
      unfold TokenVault.lock TokenVault.unlock TokenVault.fetch
      simp [hbk, mapGet_insert_self]
    | inMemory =>
      unfold TokenVault.store
      rw [if_neg (by simp [hu]), hbk]
      unfold TokenVault.lock TokenVault.unlock TokenVault.fetch
      simp [hbk, mapGet_insert_self]

/-- C4 witness: a locked in-memory vault rejects all three data operations
unchanged, and a stored value survives a lock/unlock cycle. -/
theorem vault_lock_gating_witness :
    TokenVault.store
      { backend := .inMemory, in_memory_store := [("k", "v")], keychain := [],
        locked := true } "k2" "v2" =
      ({ backend := .inMemory, in_memory_store := [("k", "v")], keychain := [],
         locked := true }, .error "Vault is locked") ∧
    TokenVault.fetch
      { backend := .inMemory, in_memory_store := [("k", "v")], keychain := [],
        locked := true } "k" = .error "Vault is locked" ∧
    TokenVault.delete
      { backend := .inMemory, in_memory_store := [("k", "v")], keychain := [],
        locked := true } "k" =
      ({ backend := .inMemory, in_memory_store := [("k", "v")], keychain := [],
         locked := true }, .error "Vault is locked") ∧
    TokenVault.fetch
      ((TokenVault.lock
        { backend := .inMemory, in_memory_store := [("k", "v")],
          keychain := [], locked := false }).unlock) "k" = .ok "v" ∧
    TokenVault.fetch
      (((TokenVault.store (TokenVault.make .inMemory) "k" "v").1.lock).unlock)
      "k" = .ok "v" := by
  have h1 := (vault_lock_gating
    { backend := .inMemory, in_memory_store := [("k", "v")], keychain := [],
      locked := true } "k2" "v2").1 rfl
  have h2 := (vault_lock_gating
    { backend := .inMemory, in_memory_store := [("k", "v")], keychain := [],
      locked := true } "k" "v").1 rfl
  exact ⟨h1.1, h2.2.1, h2.2.2,
    (vault_lock_gating
      { backend := .inMemory, in_memory_store := [("k", "v")], keychain := [],
        locked := false } "k" "v").2.2.1 rfl rfl,
    (vault_lock_gating (TokenVault.make .inMemory) "k" "v").2.2.2 rfl
      (by decide)⟩

/-- Field lookup finds the head field. -/
theorem getField_cons_self (k : String) (j : Json)
    (rest : List (String × Json)) :
    (Json.obj ((k, j) :: rest)).getField k = .ok j := by
  simp [Json.getField, lookupField]

/-- Field lookup skips a head field with a different key. -/
theorem getField_cons_ne (k k2 : String) (j : Json)
    (rest : List (String × Json)) (h : (k2 == k) = false) :
    (Json.obj ((k2, j) :: rest)).getField k = (Json.obj rest).getField k := by
  simp [Json.getField, lookupField, h]

/-- Binding an `ok` value applies the continuation. -/
theorem except_bind_ok {ε α β : Type} (a : α) (f : α → Except ε β) :
    (Except.ok a : Except ε α) >>= f = f a := rfl

/-- A `u64` value round-trips through its JSON number. -/
theorem asU64_roundtrip (n : Nat) (h : n < 2 ^ 64) :
    Json.asU64 (Json.num n) = .ok n := by
  simp only [Json.asU64]
  rw [if_pos]
  · simp
  · refine ⟨Int.natCast_nonneg n, ?_⟩
    exact_mod_cast h

/-- A `u32` value round-trips through its JSON number. -/
theorem asU32_roundtrip (n : Nat) (h : n < 2 ^ 32) :
    Json.asU32 (Json.num n) = .ok n := by
  simp only [Json.asU32]
  rw [if_pos]
  · simp
  · refine ⟨Int.natCast_nonneg n, ?_⟩
    exact_mod_cast h

/-- A `u8` value round-trips through its JSON number. -/
theorem asU8_roundtrip (n : Nat) (h : n < 2 ^ 8) :
    Json.asU8 (Json.num n) = .ok n := by
  simp only [Json.asU8]
  rw [if_pos]
  · simp
  · refine ⟨Int.natCast_nonneg n, ?_⟩
    exact_mod_cast h

/-- Element-wise deserialization inverts element-wise serialization. -/
theorem mapM_ok_of_map {α : Type} (f : α → Json) (g : Json → Except String α)
    (xs : List α) (h : ∀ x ∈ xs, g (f x) = .ok x) :
    (xs.map f).mapM g = Except.ok xs := by
  induction xs with
  | nil => rfl
  | cons x xs ih =>
    rw [List.map_cons, List.mapM_cons, h x (by simp),
      ih (fun y hy => h y (by simp [hy]))]
    rfl

/-- An optional string round-trips. -/
theorem asOpt_str_roundtrip (x : Option String) :
    Json.asOpt Json.asStr (optToJson Json.str x) = .ok x := by
  cases x <;> rfl

/-- An optional `u64` round-trips. -/
theorem asOpt_u64_roundtrip (x : Option Nat) (h : ∀ n ∈ x, n < 2 ^ 64) :
    Json.asOpt Json.asU64 (optToJson (fun n => Json.num n) x) = .ok x := by
  cases x with
  | none => rfl
  | some n =>
    show (Json.asU64 (Json.num n)).map some = .ok (some n)
    rw [asU64_roundtrip n (h n rfl)]
    rfl

/-- A serialized `SystemTime` round-trips. -/
theorem sysTime_roundtrip (t : SysTime) (h : t.WF) :
    SysTime.fromJson t.toJson = .ok t := by
  unfold SysTime.fromJson SysTime.toJson
  rw [getField_cons_self, except_bind_ok, asU64_roundtrip _ h.1,
    except_bind_ok,
    getField_cons_ne "nanos_since_epoch" "secs_since_epoch" _ _ rfl,
    getField_cons_self, except_bind_ok, asU32_roundtrip _ h.2, except_bind_ok]
  rfl

/-- An optional `SystemTime` round-trips. -/
theorem asOpt_sysTime_roundtrip (x : Option SysTime) (h : ∀ t ∈ x, t.WF) :
    Json.asOpt SysTime.fromJson (optToJson SysTime.toJson x) = .ok x := by
  cases x with
  | none => rfl
  | some t =>
    show (SysTime.fromJson t.toJson).map some = .ok (some t)
    rw [sysTime_roundtrip t (h t rfl)]
    rfl

/-- The `Input` payload round-trips. -/
theorem inputEvent_roundtrip (e : InputEvent) :
    InputEvent.fromJson e.toJson = .ok e := by
  unfold InputEvent.fromJson InputEvent.toJson
  rw [getField_cons_self, except_bind_ok]
  simp only [Json.asStr]
  rw [except_bind_ok, getField_cons_ne "context_refs" "prompt" _ _ rfl,
    getField_cons_self, except_bind_ok]
  simp only [Json.asArr]
  rw [mapM_ok_of_map Json.str Json.asStr e.context_refs (fun x _ => rfl),
    except_bind_ok]
  rfl

/-- The `Output` payload round-trips, within the Rust integer ranges. -/
theorem outputEvent_roundtrip (e : OutputEvent) (h1 : e.chunk_id < 2 ^ 64)
    (h2 : ∀ b ∈ e.data, b < 2 ^ 8) :
    OutputEvent.fromJson e.toJson = .ok e := by
  unfold OutputEvent.fromJson OutputEvent.toJson
  rw [getField_cons_self, except_bind_ok, asU64_roundtrip _ h1,
    except_bind_ok,
    getField_cons_ne "content_type" "chunk_id" _ _ rfl, getField_cons_self,
    except_bind_ok]
  simp only [Json.asStr]
  rw [except_bind_ok,
    getField_cons_ne "data" "chunk_id" _ _ rfl,
    getField_cons_ne "data" "content_type" _ _ rfl, getField_cons_self,
    except_bind_ok]
  simp only [Json.asArr]
  rw [mapM_ok_of_map (fun (b : Nat) => Json.num (b : Int)) Json.asU8 e.data
      (fun b hb => asU8_roundtrip b (h2 b hb)),
    except_bind_ok,
    getField_cons_ne "complete" "chunk_id" _ _ rfl,
    getField_cons_ne "complete" "content_type" _ _ rfl,
    getField_cons_ne "complete" "data" _ _ rfl, getField_cons_self,
    except_bind_ok]
  simp only [Json.asBool]
  rw [except_bind_ok]
  rfl

/-- The `Artifact` payload round-trips. -/
theorem artifactEvent_roundtrip (e : ArtifactEvent) :
    ArtifactEvent.fromJson e.toJson = .ok e := by
  unfold ArtifactEvent.fromJson ArtifactEvent.toJson
  rw [getField_cons_self, except_bind_ok]
  simp only [Json.asStr]
  rw [except_bind_ok, getField_cons_ne "kind" "id" _ _ rfl,
    getField_cons_self, except_bind_ok]
  simp only [Json.asStr]
  rw [except_bind_ok,
    getField_cons_ne "path" "id" _ _ rfl,
    getField_cons_ne "path" "kind" _ _ rfl, getField_cons_self,
    except_bind_ok]
  simp only [Json.asStr]
  rw [except_bind_ok,
    getField_cons_ne "preview_hint" "id" _ _ rfl,
    getField_cons_ne "preview_hint" "kind" _ _ rfl,
    getField_cons_ne "preview_hint" "path" _ _ rfl, getField_cons_self,
    except_bind_ok, asOpt_str_roundtrip, except_bind_ok]
  rfl

/-- The `ConsentRequest` payload round-trips, within the Rust ranges. -/
theorem consentRequestEvent_roundtrip (e : ConsentRequestEvent)
    (h : ∀ n ∈ e.duration_s, n < 2 ^ 64) :
    ConsentRequestEvent.fromJson e.toJson = .ok e := by
  unfold ConsentRequestEvent.fromJson ConsentRequestEvent.toJson
  rw [getField_cons_self, except_bind_ok]
  simp only [Json.asStr]
  rw [except_bind_ok, getField_cons_ne "reason" "capability" _ _ rfl,
    getField_cons_self, except_bind_ok]
  simp only [Json.asStr]
  rw [except_bind_ok,
    getField_cons_ne "duration_s" "capability" _ _ rfl,
    getField_cons_ne "duration_s" "reason" _ _ rfl, getField_cons_self,
    except_bind_ok, asOpt_u64_roundtrip _ h, except_bind_ok]
  rfl

/-- The `ConsentGrant` payload round-trips, within the Rust ranges. -/
theorem consentGrantEvent_roundtrip (e : ConsentGrantEvent)
    (h : ∀ t ∈ e.expires_at, t.WF) :
    ConsentGrantEvent.fromJson e.toJson = .ok e := by
  unfold ConsentGrantEvent.fromJson ConsentGrantEvent.toJson
  rw [getField_cons_self, except_bind_ok]
  simp only [Json.asStr]
  rw [except_bind_ok, getField_cons_ne "expires_at" "capability" _ _ rfl,
    getField_cons_self, except_bind_ok, asOpt_sysTime_roundtrip _ h,
    except_bind_ok]
  rfl

/-- The `ConsentRevoke` payload round-trips. -/
theorem consentRevokeEvent_roundtrip (e : ConsentRevokeEvent) :
    ConsentRevokeEvent.fromJson e.toJson = .ok e := by
  unfold ConsentRevokeEvent.fromJson ConsentRevokeEvent.toJson
  rw [getField_cons_self, except_bind_ok]
  simp only [Json.asStr]
  rw [except_bind_ok]
  rfl

/-- The `Error` payload round-trips. -/
theorem errorEvent_roundtrip (e : ErrorEvent) :
    ErrorEvent.fromJson e.toJson = .ok e := by
  unfold ErrorEvent.fromJson ErrorEvent.toJson
  rw [getField_cons_self, except_bind_ok]
  simp only [Json.asStr]
  rw [except_bind_ok, getField_cons_ne "message" "code" _ _ rfl,
    getField_cons_self, except_bind_ok]
  simp only [Json.asStr]
  rw [except_bind_ok,
    getField_cons_ne "hint" "code" _ _ rfl,
    getField_cons_ne "hint" "message" _ _ rfl, getField_cons_self,
    except_bind_ok, asOpt_str_roundtrip, except_bind_ok]
  rfl

/-- The `StateUpdate` payload round-trips (the free-form value is carried
through unexamined). -/
theorem stateUpdateEvent_roundtrip (e : StateUpdateEvent) :
    StateUpdateEvent.fromJson e.toJson = .ok e := by
  unfold StateUpdateEvent.fromJson StateUpdateEvent.toJson
  rw [getField_cons_self, except_bind_ok]
  simp only [Json.asStr]
  rw [except_bind_ok, getField_cons_ne "value" "key" _ _ rfl,
    getField_cons_self, except_bind_ok,
    getField_cons_ne "scope" "key" _ _ rfl,
    getField_cons_ne "scope" "value" _ _ rfl, getField_cons_self,
    except_bind_ok]
  simp only [Json.asStr]
  rw [except_bind_ok]
  rfl

/-- The tagged `EventType` union round-trips, within the Rust ranges. -/
theorem eventType_roundtrip (et : EventType) (h : et.WF) :
    EventType.fromJson et.toJson = .ok et := by
  cases et with
  | input e =>
    simp only [EventType.toJson]
    unfold EventType.fromJson
    rw [getField_cons_self, except_bind_ok]
    simp only [Json.asStr]
    rw [except_bind_ok, getField_cons_ne "data" "type" _ _ rfl,
      getField_cons_self, except_bind_ok, if_pos rfl,
      inputEvent_roundtrip]
    rfl
  | output e =>
    simp only [EventType.toJson]
    unfold EventType.fromJson
    rw [getField_cons_self, except_bind_ok]
    simp only [Json.asStr]
    rw [except_bind_ok, getField_cons_ne "data" "type" _ _ rfl,
      getField_cons_self, except_bind_ok, if_neg (by decide), if_pos rfl,
      outputEvent_roundtrip e h.1 h.2]
    rfl
  | artifact e =>
    simp only [EventType.toJson]
    unfold EventType.fromJson
    rw [getField_cons_self, except_bind_ok]
    simp only [Json.asStr]
    rw [except_bind_ok, getField_cons_ne "data" "type" _ _ rfl,
      getField_cons_self, except_bind_ok, if_neg (by decide),
      if_neg (by decide), if_pos rfl, artifactEvent_roundtrip]
    rfl
  | consentRequest e =>
    simp only [EventType.toJson]
    unfold EventType.fromJson
    rw [getField_cons_self, except_bind_ok]
    simp only [Json.asStr]
    rw [except_bind_ok, getField_cons_ne "data" "type" _ _ rfl,
      getField_cons_self, except_bind_ok, if_neg (by decide),
      if_neg (by decide), if_neg (by decide), if_pos rfl,
      consentRequestEvent_roundtrip e h]
    rfl
  | consentGrant e =>
    simp only [EventType.toJson]
    unfold EventType.fromJson
    rw [getField_cons_self, except_bind_ok]
    simp only [Json.asStr]
    rw [except_bind_ok, getField_cons_ne "data" "type" _ _ rfl,
      getField_cons_self, except_bind_ok, if_neg (by decide),
      if_neg (by decide), if_neg (by decide), if_neg (by decide), if_pos rfl,
      consentGrantEvent_roundtrip e h]
    rfl
  | consentRevoke e =>
    simp only [EventType.toJson]
    unfold EventType.fromJson
    rw [getField_cons_self, except_bind_ok]
    simp only [Json.asStr]
    rw [except_bind_ok, getField_cons_ne "data" "type" _ _ rfl,
      getField_cons_self, except_bind_ok, if_neg (by decide),
      if_neg (by decide), if_neg (by decide), if_neg (by decide),
      if_neg (by decide), if_pos rfl, consentRevokeEvent_roundtrip]
    rfl
  | error e =>
    simp only [EventType.toJson]
    unfold EventType.fromJson
    rw [getField_cons_self, except_bind_ok]
    simp only [Json.asStr]
    rw [except_bind_ok, getField_cons_ne "data" "type" _ _ rfl,
      getField_cons_self, except_bind_ok, if_neg (by decide),
      if_neg (by decide), if_neg (by decide), if_neg (by decide),
      if_neg (by decide), if_neg (by decide), if_pos rfl,
      errorEvent_roundtrip]
    rfl
  | stateUpdate e =>
    simp only [EventType.toJson]
    unfold EventType.fromJson
    rw [getField_cons_self, except_bind_ok]
    simp only [Json.asStr]
    rw [except_bind_ok, getField_cons_ne "data" "type" _ _ rfl,
      getField_cons_self, except_bind_ok, if_neg (by decide),
      if_neg (by decide), if_neg (by decide), if_neg (by decide),
      if_neg (by decide), if_neg (by decide), if_neg (by decide), if_pos rfl,
      stateUpdateEvent_roundtrip]
    rfl

/-- C10: `Event::from_json ∘ Event::to_json` is the identity: for every event
whose integer fields are in the ranges the Rust types impose (`u64` sequence,
chunk and duration fields, `u64`/`u32` timestamp components, `u8` output
bytes), deserializing the serialized event succeeds and returns an event equal
to the original — event type variant, payload, agent id, timestamp and
sequence included, for all eight `EventType` variants. -/
theorem event_json_roundtrip (e : Event) (h : e.WF) :
    Event.from_json e.to_json = .ok e := by
  obtain ⟨het, hts, hseq⟩ := h
  unfold Event.from_json Event.to_json
  rw [getField_cons_self, except_bind_ok, eventType_roundtrip e.event_type het,
    except_bind_ok,
    getField_cons_ne "agent_id" "event_type" _ _ rfl, getField_cons_self,
    except_bind_ok]
  simp only [Json.asStr]
  rw [except_bind_ok,
    getField_cons_ne "timestamp" "event_type" _ _ rfl,
    getField_cons_ne "timestamp" "agent_id" _ _ rfl, getField_cons_self,
    except_bind_ok, sysTime_roundtrip e.timestamp hts, except_bind_ok,
    getField_cons_ne "sequence" "event_type" _ _ rfl,
    getField_cons_ne "sequence" "agent_id" _ _ rfl,
    getField_cons_ne "sequence" "timestamp" _ _ rfl, getField_cons_self,
    except_bind_ok, asU64_roundtrip _ hseq, except_bind_ok]
  rfl

/-- A concrete output event used to witness the round-trip theorem. -/
def demoRoundtripEvent : Event :=
  { event_type := .output { chunk_id := 1, content_type := "text/plain",
                            data := [72, 105], complete := true }
    agent_id := "agent-1"
    timestamp := { secs := 1700000000, nanos := 500 }
    sequence := 7 }

/-- C10 witness: the concrete output event is within the Rust ranges and
round-trips to itself. -/
theorem event_json_roundtrip_witness :
    Event.WF demoRoundtripEvent ∧
    Event.from_json demoRoundtripEvent.to_json = .ok demoRoundtripEvent :=
  ⟨⟨⟨by decide, by decide⟩, ⟨by decide, by decide⟩, by decide⟩,
   event_json_roundtrip demoRoundtripEvent
     ⟨⟨by decide, by decide⟩, ⟨by decide, by decide⟩, by decide⟩⟩

end PSAI
